import Mathlib

/-
Verification of the BoundingRect module (src/src/core/BoundingRect.ts).

Numbers are embedded as exact rationals. The Point and Matrix collaborators
are external to the given source; they are modelled from the spec (section 3
and section 6) where the claims need them.
-/

/-- Modelled from the spec: the external Point collaborator, a mutable pair
of numbers `{x, y}`. Embedded as an immutable pair; in-place writes become
functions returning the updated point. -/
structure Point where
  x : ℚ
  y : ℚ
deriving DecidableEq, Repr

/-- Modelled from the spec: the external Matrix collaborator, a 6-element
affine transform `[a, b, c, d, tx, ty]` with meaning
`xP = a*x + c*y + tx`, `yP = b*x + d*y + ty`. -/
structure MatrixArray where
  m0 : ℚ
  m1 : ℚ
  m2 : ℚ
  m3 : ℚ
  m4 : ℚ
  m5 : ℚ
deriving DecidableEq, Repr

/-- Modelled from the spec: in-place `Point.transform(m)` applies the affine
map `xP = a*x + c*y + tx`, `yP = b*x + d*y + ty`. -/
def Point.transform (p : Point) (m : MatrixArray) : Point :=
  ⟨m.m0 * p.x + m.m2 * p.y + m.m4, m.m1 * p.x + m.m3 * p.y + m.m5⟩

/-- Modelled from the spec: `Point.set(out, x, y)` writes the two fields. -/
def Point.set (x y : ℚ) : Point :=
  ⟨x, y⟩

namespace matrix

/-- Modelled from the spec: `matrix.create()` yields the identity matrix. -/
def create : MatrixArray :=
  ⟨1, 0, 0, 1, 0, 0⟩

/-- Modelled from the spec: `matrix.translate(out, a, v)` post-composes a
translation by `v` onto `a` (the translation is applied after the map `a`). -/
def translate (a : MatrixArray) (v : Point) : MatrixArray :=
  ⟨a.m0, a.m1, a.m2, a.m3, a.m4 + v.x, a.m5 + v.y⟩

/-- Modelled from the spec: `matrix.scale(out, a, v)` post-composes a scale
by `v` onto `a` (the scale is applied after the map `a`), so every
coefficient of column x is multiplied by `v.x` and of column y by `v.y`. -/
def scale (a : MatrixArray) (v : Point) : MatrixArray :=
  ⟨a.m0 * v.x, a.m1 * v.y, a.m2 * v.x, a.m3 * v.y, a.m4 * v.x, a.m5 * v.y⟩

end matrix

/-- The BoundingRect data: fields `x`, `y`, `width`, `height`.
`RectLike` of the source has the same four numeric fields, so the same
structure serves for both. -/
structure BoundingRect where
  x : ℚ
  y : ℚ
  width : ℚ
  height : ℚ
deriving DecidableEq, Repr

/-- The `RectLike` type of the source: any object with the four numeric
fields. Structurally identical to `BoundingRect`. -/
abbrev RectLike := BoundingRect

namespace BoundingRect

/-- The constructor `new BoundingRect(x, y, width, height)`: a negative
width shifts the origin by the extent and negates the extent, and
symmetrically for height. The two normalizations are independent, so the
sequential field updates of the source are written as one record. -/
def make (x y width height : ℚ) : BoundingRect :=
  { x := if width < 0 then x + width else x
    y := if height < 0 then y + height else y
    width := if width < 0 then -width else width
    height := if height < 0 then -height else height }

/-- `BoundingRect.create(rect)`: construct from a rect-like object,
applying the constructor normalization. -/
def create (rect : RectLike) : BoundingRect :=
  make rect.x rect.y rect.width rect.height

/-- `union(other)`: the source computes the new extents from the original
fields before overwriting `x` and `y` (edges first, origin last). -/
def union (a other : BoundingRect) : BoundingRect :=
  { x := min other.x a.x
    y := min other.y a.y
    width := max (other.x + other.width) (a.x + a.width) - min other.x a.x
    height := max (other.y + other.height) (a.y + a.height) - min other.y a.y }

/-- `copy(other)`: overwrite the four fields from `other`, verbatim. -/
def copy (_self : BoundingRect) (other : RectLike) : BoundingRect :=
  ⟨other.x, other.y, other.width, other.height⟩

/-- The fast path of static `applyTransform` (no rotation in the matrix):
`x = source.x*m[0] + m[4]`, `y = source.y*m[3] + m[5]`,
`width = source.width*m[0]`, `height = source.height*m[3]`. -/
def applyTransformFast (source : BoundingRect) (m : MatrixArray) : BoundingRect :=
  { x := source.x * m.m0 + m.m4
    y := source.y * m.m3 + m.m5
    width := source.width * m.m0
    height := source.height * m.m3 }

/-- The general path of static `applyTransform`: transform the four corners
lt, rt, rb, lb through `m` and take the axis-aligned span of the results,
in the argument order of the source (`mathMin(lt.x, rb.x, lb.x, rt.x)`). -/
def applyTransformGeneral (source : BoundingRect) (m : MatrixArray) : BoundingRect :=
  let lt := Point.transform ⟨source.x, source.y⟩ m
  let rt := Point.transform ⟨source.x + source.width, source.y⟩ m
  let rb := Point.transform ⟨source.x + source.width, source.y + source.height⟩ m
  let lb := Point.transform ⟨source.x, source.y + source.height⟩ m
  let minX := min lt.x (min rb.x (min lb.x rt.x))
  let minY := min lt.y (min rb.y (min lb.y rt.y))
  let maxX := max lt.x (max rb.x (max lb.x rt.x))
  let maxY := max lt.y (max rb.y (max lb.y rt.y))
  ⟨minX, minY, maxX - minX, maxY - minY⟩

/-- The epsilon `1e-5` of the fast-path test. -/
def eps : ℚ := 1 / 100000

/-- Static `applyTransform(target, source, m)`. A falsy `m` is `none`: the
target becomes a verbatim copy of the source (also covering the aliased
no-op case). Otherwise the fast path is taken when `m[1] < 1e-5` and
`m[2] < 1e-5`, else the general four-corner path. The target is fully
overwritten in every case, so the embedding returns it. -/
def applyTransform (source : BoundingRect) (m : Option MatrixArray) : BoundingRect :=
  match m with
  | none => source
  | some m =>
    if m.m1 < eps ∧ m.m2 < eps then
      applyTransformFast source m
    else
      applyTransformGeneral source m

/-- `calculateTransform(b)`: the matrix mapping `this` onto `b`, composed
as translate(-this.x, -this.y), then scale, then translate(b.x, b.y).
Rational division is total (division by zero yields 0 instead of the
Infinity/NaN of the source), which only matters for zero-extent sources. -/
def calculateTransform (a : BoundingRect) (b : RectLike) : MatrixArray :=
  let sx := b.width / a.width
  let sy := b.height / a.height
  let m := matrix.create
  let m := matrix.translate m (Point.set (-a.x) (-a.y))
  let m := matrix.scale m (Point.set sx sy)
  let m := matrix.translate m (Point.set b.x b.y)
  m

/-- `contain(x, y)`: inclusive containment test on both axes. -/
def contain (rect : BoundingRect) (x y : ℚ) : Bool :=
  decide (x ≥ rect.x) && decide (x ≤ rect.x + rect.width)
    && decide (y ≥ rect.y) && decide (y ≤ rect.y + rect.height)

/-- The comparison `d < dMin` where `dMin` starts as `Infinity`; the
infinity is modelled as `none`. -/
def ltInf (d : ℚ) (dMin : Option ℚ) : Prop :=
  match dMin with
  | none => True
  | some v => d < v

instance (d : ℚ) (dMin : Option ℚ) : Decidable (ltInf d dMin) :=
  match dMin with
  | none => isTrue trivial
  | some v => inferInstanceAs (Decidable (d < v))

/-- The observable outcome of one `intersect` call: the returned Boolean,
the final value of the `mtv` out-parameter, and the final values of the
module-level scratch points `minTv` and `maxTv`. -/
structure IntersectOut where
  overlap : Bool
  mtv : Option Point
  minTv : Point
  maxTv : Point
deriving DecidableEq, Repr

/-- `intersect(b, mtv?)`. A falsy `b` is `none`: return `false` at once.
Otherwise `b` is coerced through `BoundingRect.create` (the source does so
whenever `b` is not already a BoundingRect; on a rect that satisfies the
invariant the coercion changes nothing, so this covers both branches).
The module-level scratch points `minTv` and `maxTv` enter as the last two
arguments and their final values are returned. The y-axis overlap branch
of the source tests and stores `dx`, not `dy` (lines 146 to 147); the
embedding reproduces that literally. -/
def intersect (a : BoundingRect) (b : Option RectLike) (mtv : Option Point)
    (minTv maxTv : Point) : IntersectOut :=
  match b with
  | none => ⟨false, mtv, minTv, maxTv⟩
  | some bRaw =>
    let b := create bRaw
    let ax0 := a.x
    let ax1 := a.x + a.width
    let ay0 := a.y
    let ay1 := a.y + a.height
    let bx0 := b.x
    let bx1 := b.x + b.width
    let by0 := b.y
    let by1 := b.y + b.height
    let overlap : Bool := decide (¬ (ax1 < bx0 ∨ bx1 < ax0 ∨ ay1 < by0 ∨ by1 < ay0))
    match mtv with
    | none => ⟨overlap, none, minTv, maxTv⟩
    | some mtvIn =>
      let dMin : Option ℚ := none
      let dMax : ℚ := 0
      let d0 := |ax1 - bx0|
      let d1 := |bx1 - ax0|
      let d2 := |ay1 - by0|
      let d3 := |by1 - ay0|
      let dx := min d0 d1
      let dy := min d2 d3
      let st1 :=
        if ax1 < bx0 ∨ bx1 < ax0 then
          if dx > dMax then
            (dMin, dx, minTv,
              if d0 < d1 then Point.set (-d0) 0 else Point.set d1 0)
          else (dMin, dMax, minTv, maxTv)
        else
          if ltInf dx dMin then
            ((some dx : Option ℚ), dMax,
              (if d0 < d1 then Point.set d0 0 else Point.set (-d1) 0), maxTv)
          else (dMin, dMax, minTv, maxTv)
      let dMin1 := st1.1
      let dMax1 := st1.2.1
      let minTv1 := st1.2.2.1
      let maxTv1 := st1.2.2.2
      let st2 :=
        if ay1 < by0 ∨ by1 < ay0 then
          if dy > dMax1 then
            (dMin1, dy, minTv1,
              if d2 < d3 then Point.set 0 (-d2) else Point.set 0 d3)
          else (dMin1, dMax1, minTv1, maxTv1)
        else
          if ltInf dx dMin1 then
            ((some dx : Option ℚ), dMax1,
              (if d2 < d3 then Point.set 0 d2 else Point.set 0 (-d3)), maxTv1)
          else (dMin1, dMax1, minTv1, maxTv1)
      let minTv2 := st2.2.2.1
      let maxTv2 := st2.2.2.2
      let _ := mtvIn
      ⟨overlap, some (if overlap = true then minTv2 else maxTv2), minTv2, maxTv2⟩

/-- The documented invariant of the data model: non-negative extents. -/
def Invariant (r : BoundingRect) : Prop :=
  0 ≤ r.width ∧ 0 ≤ r.height

instance (r : BoundingRect) : Decidable r.Invariant :=
  inferInstanceAs (Decidable (0 ≤ r.width ∧ 0 ≤ r.height))

end BoundingRect

/-- The minimum of the four-corner span never exceeds the maximum. -/
theorem min4_le_max4 (a b c d : ℚ) :
    min a (min b (min c d)) ≤ max a (max b (max c d)) :=
  le_trans (min_le_left _ _) (le_max_left _ _)

/-- C4: the constructor stores `x := x + width`, `width := -width` when
`width < 0` (symmetrically for height), the stored extents are
non-negative, the stored rectangle spans the same interval endpoints as
the unnormalized box on each axis, and `new BoundingRect(10,10,-5,-5)`
has fields `{x:5, y:5, width:5, height:5}`. -/
theorem c4_constructor_normalization :
    (∀ x y w h : ℚ,
      BoundingRect.make x y w h =
        { x := if w < 0 then x + w else x
          y := if h < 0 then y + h else y
          width := if w < 0 then -w else w
          height := if h < 0 then -h else h } ∧
      0 ≤ (BoundingRect.make x y w h).width ∧
      0 ≤ (BoundingRect.make x y w h).height ∧
      (BoundingRect.make x y w h).x = min x (x + w) ∧
      (BoundingRect.make x y w h).x + (BoundingRect.make x y w h).width = max x (x + w) ∧
      (BoundingRect.make x y w h).y = min y (y + h) ∧
      (BoundingRect.make x y w h).y + (BoundingRect.make x y w h).height = max y (y + h)) ∧
    BoundingRect.make 10 10 (-5) (-5) = ⟨5, 5, 5, 5⟩ := by
  refine ⟨fun x y w h => ⟨rfl, ?_, ?_, ?_, ?_, ?_, ?_⟩, by norm_num [BoundingRect.make]⟩ <;>
    simp only [BoundingRect.make]
  · split_ifs with hlt <;> linarith
  · split_ifs with hlt <;> linarith
  · split_ifs with hlt
    · exact (min_eq_right (by linarith)).symm
    · exact (min_eq_left (by linarith)).symm
  · split_ifs with hlt
    · rw [max_eq_left (by linarith)]; ring
    · rw [max_eq_right (by linarith)]
  · split_ifs with hlt
    · exact (min_eq_right (by linarith)).symm
    · exact (min_eq_left (by linarith)).symm
  · split_ifs with hlt
    · rw [max_eq_left (by linarith)]; ring
    · rw [max_eq_right (by linarith)]

/-- C6: after `a.union(b)` the origin is the componentwise minimum of the
two origins and the far corner is the componentwise maximum of the two far
corners, all computed from the fields a held before the call. -/
theorem c6_union_bounds (a b : BoundingRect) :
    (a.union b).x = min a.x b.x ∧
    (a.union b).y = min a.y b.y ∧
    (a.union b).x + (a.union b).width = max (a.x + a.width) (b.x + b.width) ∧
    (a.union b).y + (a.union b).height = max (a.y + a.height) (b.y + b.height) := by
  refine ⟨min_comm _ _, min_comm _ _, ?_, ?_⟩ <;>
    simp only [BoundingRect.union] <;> rw [max_comm] <;> ring

/-- C7: `intersect` with a falsy rectangle returns `false`, whatever the
mtv argument and the scratch state. -/
theorem c7_intersect_falsy_false (a : BoundingRect) (mtv : Option Point)
    (minTv maxTv : Point) :
    (a.intersect none mtv minTv maxTv).overlap = false :=
  rfl

/-- C9: `intersect` with a falsy rectangle leaves a supplied mtv point
completely unchanged (and touches neither scratch point). -/
theorem c9_intersect_falsy_mtv_unchanged (a : BoundingRect) (mtv : Point)
    (minTv maxTv : Point) :
    (a.intersect none (some mtv) minTv maxTv).mtv = some mtv ∧
    (a.intersect none (some mtv) minTv maxTv).minTv = minTv ∧
    (a.intersect none (some mtv) minTv maxTv).maxTv = maxTv :=
  ⟨rfl, rfl, rfl⟩

/-- C8: `contain(x, y)` is true exactly on the closed box
`[x, x+width] times [y, y+height]`, and the boundary examples of the spec
hold for the rectangle (0,0,10,10). -/
theorem c8_contain_boundaries :
    (∀ r : BoundingRect, ∀ x y : ℚ,
      r.contain x y = true ↔
        (r.x ≤ x ∧ x ≤ r.x + r.width ∧ r.y ≤ y ∧ y ≤ r.y + r.height)) ∧
    (BoundingRect.make 0 0 10 10).contain 0 0 = true ∧
    (BoundingRect.make 0 0 10 10).contain 10 10 = true ∧
    (BoundingRect.make 0 0 10 10).contain 5 5 = true ∧
    (BoundingRect.make 0 0 10 10).contain (100001 / 10000) 5 = false := by
  refine ⟨fun r x y => ?_,
    by norm_num [BoundingRect.make, BoundingRect.contain],
    by norm_num [BoundingRect.make, BoundingRect.contain],
    by norm_num [BoundingRect.make, BoundingRect.contain],
    by norm_num [BoundingRect.make, BoundingRect.contain]⟩
  simp [BoundingRect.contain, and_assoc, ge_iff_le]

/-- The general four-corner path always yields non-negative extents, for
every source rectangle and every matrix. -/
theorem applyTransformGeneral_invariant (source : BoundingRect) (m : MatrixArray) :
    (source.applyTransformGeneral m).Invariant := by
  constructor <;>
    simp only [BoundingRect.applyTransformGeneral, BoundingRect.Invariant] <;>
    exact sub_nonneg.2 (min4_le_max4 _ _ _ _)

/-- C1 counterexample: the fast path of `applyTransform` multiplies the
extents by m[0] and m[3] without normalizing the sign, so a freshly
constructed rectangle transformed by the pure scale matrix
[-1, 0, 0, 1, 0, 0] ends with width -1 < 0. -/
theorem c1_invariant_counterexample :
    ¬ ((BoundingRect.make 0 0 1 1).applyTransform
        (some ⟨-1, 0, 0, 1, 0, 0⟩)).Invariant := by
  norm_num [BoundingRect.make, BoundingRect.applyTransform,
    BoundingRect.applyTransformFast, BoundingRect.eps, BoundingRect.Invariant]

/-- C1 amended: the invariant `width >= 0 and height >= 0` holds after
construction, after `union` of invariant rectangles, after `copy` from an
invariant rectangle, after `applyTransform` with a falsy matrix, after the
general four-corner path, and after `applyTransform` with a matrix whose
m[0] and m[3] are non-negative; the unrestricted fast path breaks it. -/
theorem c1_invariant_preservation :
    (∀ x y w h : ℚ, (BoundingRect.make x y w h).Invariant) ∧
    (∀ a b : BoundingRect, a.Invariant → b.Invariant → (a.union b).Invariant) ∧
    (∀ a : BoundingRect, ∀ r : RectLike, r.Invariant → (a.copy r).Invariant) ∧
    (∀ a : BoundingRect, a.Invariant → (a.applyTransform none).Invariant) ∧
    (∀ a : BoundingRect, ∀ m : MatrixArray,
      ¬ (m.m1 < BoundingRect.eps ∧ m.m2 < BoundingRect.eps) →
      (a.applyTransform (some m)).Invariant) ∧
    (∀ a : BoundingRect, ∀ m : MatrixArray,
      a.Invariant → 0 ≤ m.m0 → 0 ≤ m.m3 →
      (a.applyTransform (some m)).Invariant) := by
  refine ⟨?_, ?_, ?_, ?_, ?_, ?_⟩
  · intro x y w h
    constructor <;> simp only [BoundingRect.make] <;> split_ifs <;> linarith
  · intro a b ha hb
    have h1 := min_le_right b.x a.x
    have h2 := le_max_right (b.x + b.width) (a.x + a.width)
    have h3 := min_le_right b.y a.y
    have h4 := le_max_right (b.y + b.height) (a.y + a.height)
    constructor <;> simp only [BoundingRect.union] <;>
      [linarith [ha.1]; linarith [ha.2]]
  · intro a r hr
    exact hr
  · intro a ha
    exact ha
  · intro a m hm
    simp only [BoundingRect.applyTransform, if_neg hm]
    exact applyTransformGeneral_invariant a m
  · intro a m ha hm0 hm3
    simp only [BoundingRect.applyTransform]
    split_ifs with hc
    · exact ⟨mul_nonneg ha.1 hm0, mul_nonneg ha.2 hm3⟩
    · exact applyTransformGeneral_invariant a m

/-- C1 witness: the preservation theorem applied at concrete inputs for
each conjunct that carries a hypothesis. -/
theorem c1_invariant_preservation_witness :
    ((BoundingRect.make 0 0 1 1).union (BoundingRect.make 2 2 3 3)).Invariant ∧
    ((BoundingRect.make 0 0 1 1).copy (BoundingRect.make 2 2 3 3)).Invariant ∧
    ((BoundingRect.make 0 0 1 1).applyTransform none).Invariant ∧
    ((BoundingRect.make 0 0 1 1).applyTransform (some ⟨0, 1, 1, 0, 0, 0⟩)).Invariant ∧
    ((BoundingRect.make 0 0 1 1).applyTransform (some ⟨2, 0, 0, 3, 5, 7⟩)).Invariant := by
  have hinv : (BoundingRect.make 0 0 1 1).Invariant := by
    norm_num [BoundingRect.make, BoundingRect.Invariant]
  have hinv2 : (BoundingRect.make 2 2 3 3).Invariant := by
    norm_num [BoundingRect.make, BoundingRect.Invariant]
  exact ⟨c1_invariant_preservation.2.1 _ _ hinv hinv2,
    c1_invariant_preservation.2.2.1 _ _ hinv2,
    c1_invariant_preservation.2.2.2.1 _ hinv,
    c1_invariant_preservation.2.2.2.2.1 _ _ (by norm_num [BoundingRect.eps]),
    c1_invariant_preservation.2.2.2.2.2 _ _ hinv (by norm_num) (by norm_num)⟩

/-- On a pure scale plus translate matrix with non-negative scales, the
general path of `applyTransform` reduces to the closed scale-translate
form, provided the source satisfies the invariant. -/
theorem applyTransformGeneral_scaleTranslate (r : BoundingRect) (sx sy tx ty : ℚ)
    (hw : 0 ≤ r.width) (hh : 0 ≤ r.height) (hsx : 0 ≤ sx) (hsy : 0 ≤ sy) :
    r.applyTransformGeneral ⟨sx, 0, 0, sy, tx, ty⟩ =
      ⟨sx * r.x + tx, sy * r.y + ty, sx * r.width, sy * r.height⟩ := by
  have hx : sx * r.x + tx ≤ sx * (r.x + r.width) + tx := by nlinarith
  have hy : sy * r.y + ty ≤ sy * (r.y + r.height) + ty := by nlinarith
  simp only [BoundingRect.applyTransformGeneral, Point.transform,
    zero_mul, mul_zero, add_zero, zero_add]
  rw [min_eq_left hx, min_eq_right hx, min_self,
    min_eq_right hy, min_eq_right hy, min_self,
    max_eq_right hx, max_self, max_eq_right hx,
    max_eq_left hy, max_self, max_eq_right hy]
  simp only [BoundingRect.mk.injEq, true_and, and_true, eq_self_iff_true]
  constructor <;> ring

/-- C2 counterexample: on the pure scale matrix [-1, 0, 0, 1, 0, 0] (a
legitimate [sx,0,0,sy,tx,ty] with sx = -1) and the unit square, the fast
path yields (0, 0, -1, 1) while the general path yields (-1, 0, 1, 1). -/
theorem c2_fast_general_counterexample :
    ¬ ((BoundingRect.make 0 0 1 1).applyTransformFast ⟨-1, 0, 0, 1, 0, 0⟩ =
       (BoundingRect.make 0 0 1 1).applyTransformGeneral ⟨-1, 0, 0, 1, 0, 0⟩) := by
  norm_num [BoundingRect.make, BoundingRect.applyTransformFast,
    BoundingRect.applyTransformGeneral, Point.transform, BoundingRect.mk.injEq]

/-- C2 amended: for every invariant-satisfying rectangle and every pure
scale plus translate matrix [sx, 0, 0, sy, tx, ty] with non-negative sx and
sy, the fast path and the general four-corner path agree exactly. -/
theorem c2_fast_general_agree (r : BoundingRect) (sx sy tx ty : ℚ)
    (hr : r.Invariant) (hsx : 0 ≤ sx) (hsy : 0 ≤ sy) :
    r.applyTransformFast ⟨sx, 0, 0, sy, tx, ty⟩ =
      r.applyTransformGeneral ⟨sx, 0, 0, sy, tx, ty⟩ := by
  rw [applyTransformGeneral_scaleTranslate r sx sy tx ty hr.1 hr.2 hsx hsy]
  simp only [BoundingRect.applyTransformFast, BoundingRect.mk.injEq]
  refine ⟨by ring, by ring, by ring, by ring⟩

/-- C2 witness: the agreement theorem applied at a concrete rectangle and
matrix. -/
theorem c2_fast_general_agree_witness :
    (BoundingRect.make 1 2 3 4).applyTransformFast ⟨2, 0, 0, 5, 7, 11⟩ =
      (BoundingRect.make 1 2 3 4).applyTransformGeneral ⟨2, 0, 0, 5, 7, 11⟩ :=
  c2_fast_general_agree _ 2 5 7 11
    (by norm_num [BoundingRect.make, BoundingRect.Invariant])
    (by norm_num) (by norm_num)

/-- C10: whenever static `applyTransform` takes the general four-corner
path (the matrix fails the fast-path test), the target has non-negative
width and height, for every source rectangle and every such matrix. -/
theorem c10_general_path_invariant (source : BoundingRect) (m : MatrixArray)
    (hm : ¬ (m.m1 < BoundingRect.eps ∧ m.m2 < BoundingRect.eps)) :
    0 ≤ (source.applyTransform (some m)).width ∧
    0 ≤ (source.applyTransform (some m)).height := by
  simp only [BoundingRect.applyTransform, if_neg hm]
  exact applyTransformGeneral_invariant source m

/-- C10 witness: the theorem applied to the unit square and a rotation
matrix, whose shear entries fail the fast-path test. -/
theorem c10_general_path_invariant_witness :
    0 ≤ ((BoundingRect.make 0 0 1 1).applyTransform (some ⟨0, 1, 1, 0, 0, 0⟩)).width ∧
    0 ≤ ((BoundingRect.make 0 0 1 1).applyTransform (some ⟨0, 1, 1, 0, 0, 0⟩)).height :=
  c10_general_path_invariant _ _ (by norm_num [BoundingRect.eps])

/-- C5: for rectangles with strictly positive extents, applying
`a.calculateTransform(b)` to `a` through static `applyTransform` yields
exactly the fields of `b`. -/
theorem c5_calculateTransform_roundtrip (a b : BoundingRect)
    (haw : 0 < a.width) (hah : 0 < a.height)
    (hbw : 0 < b.width) (hbh : 0 < b.height) :
    a.applyTransform (some (a.calculateTransform b)) = b := by
  have hw : a.width ≠ 0 := ne_of_gt haw
  have hh : a.height ≠ 0 := ne_of_gt hah
  obtain ⟨bx, byy, bw, bh⟩ := b
  simp only [BoundingRect.calculateTransform, matrix.create, matrix.translate,
    matrix.scale, Point.set, BoundingRect.applyTransform, BoundingRect.eps,
    zero_add, one_mul, zero_mul, mul_zero, neg_mul]
  norm_num
  simp only [BoundingRect.applyTransformFast, BoundingRect.mk.injEq]
  refine ⟨by ring, by ring, ?_, ?_⟩
  · rw [mul_comm]; exact div_mul_cancel₀ _ hw
  · rw [mul_comm]; exact div_mul_cancel₀ _ hh

/-- C5 witness: the round trip applied at concrete rectangles. -/
theorem c5_calculateTransform_roundtrip_witness :
    (BoundingRect.make 1 1 2 2).applyTransform
      (some ((BoundingRect.make 1 1 2 2).calculateTransform (BoundingRect.make 3 4 5 6))) =
      BoundingRect.make 3 4 5 6 :=
  c5_calculateTransform_roundtrip _ _
    (by norm_num [BoundingRect.make]) (by norm_num [BoundingRect.make])
    (by norm_num [BoundingRect.make]) (by norm_num [BoundingRect.make])

/-- C3: evaluation of `intersect` at the overlapping pair a = (0,0,10,10),
b = (0,8,10,10) with an mtv out-point. The y-axis penetration (2) is
strictly smaller than the x-axis penetration (10), yet the code reports
the x-axis vector (-10, 0): the overlapping y branch of the source tests
and stores `dx` instead of `dy`, so the reported vector never switches to
the y axis. -/
theorem c3_mtv_least_penetration_bug :
    (((BoundingRect.make 0 0 10 10).intersect (some (BoundingRect.make 0 8 10 10))
      (some (Point.set 0 0)) (Point.set 0 0) (Point.set 0 0)).overlap = true) ∧
    (((BoundingRect.make 0 0 10 10).intersect (some (BoundingRect.make 0 8 10 10))
      (some (Point.set 0 0)) (Point.set 0 0) (Point.set 0 0)).mtv =
        some (Point.set (-10) 0)) ∧
    min (abs ((0 : ℚ) + 10 - 8)) (abs (8 + 10 - 0)) <
      min (abs ((0 : ℚ) + 10 - 0)) (abs (0 + 10 - 0)) := by
  refine ⟨?_, ?_, by norm_num [abs_of_nonneg]⟩ <;>
    norm_num [BoundingRect.make, BoundingRect.create, BoundingRect.intersect,
      BoundingRect.ltInf, Point.set, abs_of_nonneg]
